import Mathlib

/-!
# Verification of the cpace crate (a ristretto255 + STROBE PAKE)

Shallow embedding of `src/lib.rs` of the `cpace` crate.

The ristretto255 group is cyclic of prime order `ell`.  We represent a
group element by its discrete logarithm with respect to a fixed base, so
`Point := ZMod ell`, scalar multiplication is field multiplication, the
identity element is `0`, and canonical compression is the fixed-width
32-byte little-endian encoding of the representative (injective; the
identity element compresses to 32 zero bytes, exactly as in ristretto255).

The STROBE protocol object (crate `strobe_rs`) is modelled by the sequence
of absorbed operations together with the party role: per the STROBE
specification, the first operation carrying the `T` flag fixes the role
(`send_clr` makes the party the initiator, `recv_clr` the responder), and
the `I` direction flag of every `T` operation is XORed with the role
before being absorbed, so that matched `send`/`recv` pairs of the two
parties absorb identical data.  Pseudorandom output (`prf`) is modelled by
a concrete deterministic function of the absorbed operation sequence; the
role field influences only future `T` operations, never the output.

The random bytes the code samples with `getrandom` are passed to each
constructor explicitly.
-/

/-- The order of the ristretto255 group. -/
def ell : Nat := 2 ^ 252 + 27742317777372353535851937790883648493

instance : NeZero ell := ⟨by decide⟩

/-- A ristretto255 group element, represented by its discrete logarithm
with respect to a fixed base point. -/
abbrev Point := ZMod ell

/-- A scalar modulo the group order. -/
abbrev Scalar := ZMod ell

/-- Little-endian byte decoding. -/
def natFromLe : List Nat → Nat
  | [] => 0
  | b :: bs => b + 256 * natFromLe bs

/-- Fixed-width little-endian byte encoding. -/
def natToLe : Nat → Nat → List Nat
  | 0, _ => []
  | k + 1, x => x % 256 :: natToLe k (x / 256)

/-- Rust's lexicographic strict order on byte slices (`&[u8] < &[u8]`,
and `[u8; 32] < [u8; 32]` by the derived array order). -/
def lexLt : List Nat → List Nat → Bool
  | [], [] => false
  | [], _ :: _ => true
  | _ :: _, [] => false
  | x :: xs, y :: ys => if x < y then true else if y < x then false else lexLt xs ys

/-- `Scalar::from_bytes_mod_order_wide`: wide reduction of a 64-byte
little-endian value modulo the group order. -/
def scalarFromBytesWide (r : List Nat) : Scalar := (natFromLe r : Nat)

/-- `RistrettoPoint::from_uniform_bytes`: a deterministic map from 64
bytes to a group element. -/
def pointFromUniform (r : List Nat) : Point := (natFromLe r : Nat)

/-- `point.compress().to_bytes()`: the canonical 32-byte encoding. -/
def compress (p : Point) : List Nat := natToLe 32 p.val

/-- One absorbed STROBE operation.  For `T` operations (`clr`), the stored
`flip` bit is the direction flag after the role adjustment. -/
inductive StrobeOp where
  | init (label : List Nat)
  | ad (data : List Nat)
  | key (data : List Nat)
  | prfMark (n : Nat)
  | clr (flip : Bool) (data : List Nat)
  deriving DecidableEq

/-- STROBE protocol state: the absorbed operations and the party role
(`none` until the first `T` operation). -/
structure Strobe where
  ops : List StrobeOp
  is_receiver : Option Bool
  deriving DecidableEq

/-- `Strobe::new(label, SecParam::B256)`. -/
def Strobe.new (label : List Nat) : Strobe := ⟨[.init label], none⟩

/-- `ad(data, false)`. -/
def Strobe.ad (s : Strobe) (x : List Nat) : Strobe := ⟨s.ops ++ [.ad x], s.is_receiver⟩

/-- `key(data, false)`. -/
def Strobe.key (s : Strobe) (x : List Nat) : Strobe := ⟨s.ops ++ [.key x], s.is_receiver⟩

/-- Shared handling of `send_clr`/`recv_clr` (`i` is the `I` flag): the
first `T` operation fixes the role, and the absorbed direction bit is the
`I` flag XORed with the role. -/
def Strobe.txOp (s : Strobe) (i : Bool) (x : List Nat) : Strobe :=
  let r := s.is_receiver.getD i
  ⟨s.ops ++ [.clr (xor i r) x], some r⟩

/-- `send_clr(data, false)`. -/
def Strobe.sendClr (s : Strobe) (x : List Nat) : Strobe := s.txOp false x

/-- `recv_clr(data, false)`. -/
def Strobe.recvClr (s : Strobe) (x : List Nat) : Strobe := s.txOp true x

/-- Encoding of one operation, for the PRF model. -/
def StrobeOp.enc : StrobeOp → Nat
  | .init l => 5 * natFromLe l + 1
  | .ad x => 5 * natFromLe x + 2
  | .key x => 5 * natFromLe x + 3
  | .prfMark n => 5 * n + 4
  | .clr f x => 5 * (2 * natFromLe x + cond f 1 0) + 5

/-- Deterministic model of STROBE PRF output: a function of the absorbed
operation sequence only (the role field affects only the encoding of
future `T` operations, never the output). -/
def prfOut (ops : List StrobeOp) (n : Nat) : List Nat :=
  (List.range n).map fun i => (ops.foldl (fun a op => a * 4294967311 + op.enc) 7 + i) % 256

/-- `prf(&mut out, false)` with an `n`-byte output buffer: returns `n`
pseudorandom bytes and records the operation in the state. -/
def Strobe.prf (s : Strobe) (n : Nat) : List Nat × Strobe :=
  (prfOut s.ops n, ⟨s.ops ++ [.prfMark n], s.is_receiver⟩)

/-- Application-level pseudorandom extraction from a finalized transcript. -/
def extract (s : Strobe) (n : Nat) : List Nat := (s.prf n).1

/-- The protocol domain label `b"cpace-r255-strobe"`. -/
def protoLabel : List Nat :=
  [99, 112, 97, 99, 101, 45, 114, 50, 53, 53, 45, 115, 116, 114, 111, 98, 101]

/-- The struct `Exchanger`: an asynchronous PAKE exchange. -/
structure Exchanger where
  cpace : Strobe
  d : Scalar
  y : Point
  deriving DecidableEq

/-- `Exchanger::new(id_a, id_b, password)`, with the 64 random bytes the
code samples from `getrandom` passed explicitly as `r`. -/
def Exchanger.new (id_a id_b password : List Nat) (r : List Nat) : Exchanger :=
  let cpace := Strobe.new protoLabel
  let cpace := cpace.ad (if lexLt id_a id_b then id_a else id_b)
  let cpace := cpace.ad (if lexLt id_a id_b then id_b else id_a)
  let cpace := cpace.key password
  let d := scalarFromBytesWide r
  let pr := cpace.prf 64
  let g := pointFromUniform pr.1
  { cpace := pr.2, d := d, y := g * d }

/-- `Exchanger::send(&self)`. -/
def Exchanger.send (e : Exchanger) : Point := e.y

/-- `Exchanger::receive(self, y)`. -/
def Exchanger.receive (e : Exchanger) (y : Point) : Strobe :=
  let cpace := e.cpace
  let y_local := compress e.y
  let y_remote := compress y
  let cpace :=
    if lexLt y_local y_remote then (cpace.sendClr y_local).recvClr y_remote
    else (cpace.recvClr y_remote).sendClr y_local
  cpace.key (compress (y * e.d))

/-- The session generator derived inside `Exchanger::new`: the transcript
is initialized with the domain label, absorbs the two identities in
lexical order, is keyed with the password, and 64 bytes of its PRF output
are mapped to a point. -/
def sessionGen (id_a id_b password : List Nat) : Point :=
  let cpace := Strobe.new protoLabel
  let cpace := cpace.ad (if lexLt id_a id_b then id_a else id_b)
  let cpace := cpace.ad (if lexLt id_a id_b then id_b else id_a)
  let cpace := cpace.key password
  pointFromUniform (cpace.prf 64).1

/-- `Exchanger::new` with the result of the `getrandom` call made
explicit: `getrandom(&mut r).expect("rng failure")` panics when the
secure random source fails, so no `Exchanger` value is produced on that
path; the panic is embedded as `none`. -/
def Exchanger.newFromRng (id_a id_b password : List Nat) (rng : Option (List Nat)) :
    Option Exchanger :=
  match rng with
  | none => none
  | some r => some (Exchanger.new id_a id_b password r)

/-- `n` successive calls of `Exchanger::send(&self)`, state-passing style:
each call observes the state, yields its result, and hands the state on. -/
def sendCalls : Nat → Exchanger → List Point × Exchanger
  | 0, e => ([], e)
  | n + 1, e =>
    let p := e.send
    let rest := sendCalls n e
    (p :: rest.1, rest.2)

/-- Recognizer for cleartext (`T`) operations. -/
def StrobeOp.isClr : StrobeOp → Bool
  | .clr _ _ => true
  | _ => false

/-- Recognizer for `key` operations. -/
def StrobeOp.isKey : StrobeOp → Bool
  | .key _ => true
  | _ => false

/-- The struct `Initiator` of the salt-based protocol. -/
structure Initiator where
  cpace : Strobe
  salt : List Nat
  d : Scalar
  deriving DecidableEq

/-- `Initiator::new(initiator_id, responder_id, password)`, with the 64
random scalar bytes `r` and the 16 random salt bytes `salt` passed
explicitly. -/
def Initiator.new (initiator_id responder_id password : List Nat)
    (r salt : List Nat) : Initiator :=
  let cpace := Strobe.new protoLabel
  let cpace := cpace.ad initiator_id
  let cpace := cpace.ad responder_id
  let cpace := cpace.key password
  ⟨cpace, salt, scalarFromBytesWide r⟩

/-- `Initiator::start(&mut self)`: returns the salt and public point to
send, together with the mutated state. -/
def Initiator.start (s : Initiator) : (List Nat × Point) × Initiator :=
  let cpace := s.cpace.sendClr s.salt
  let pr := cpace.prf 64
  let g := pointFromUniform pr.1
  let a := g * s.d
  let cpace := pr.2.sendClr (compress a)
  ((s.salt, a), { s with cpace := cpace })

/-- `Initiator::finish(self, salt, b)`. -/
def Initiator.finish (s : Initiator) (salt : List Nat) (b : Point) : Strobe :=
  let cpace := s.cpace.recvClr salt
  let cpace := cpace.recvClr (compress b)
  cpace.key (compress (b * s.d))

/-- The struct `Responder` of the salt-based protocol. -/
structure Responder where
  cpace : Strobe
  salt : List Nat
  d : Scalar
  deriving DecidableEq

/-- `Responder::new(responder_id, initiator_id, password)`; note that the
identities are absorbed initiator-first, as in `Initiator::new`. -/
def Responder.new (responder_id initiator_id password : List Nat)
    (r salt : List Nat) : Responder :=
  let cpace := Strobe.new protoLabel
  let cpace := cpace.ad initiator_id
  let cpace := cpace.ad responder_id
  let cpace := cpace.key password
  ⟨cpace, salt, scalarFromBytesWide r⟩

/-- `Responder::start(&mut self, salt, a)`: returns the second salt and
public point, together with the mutated state. -/
def Responder.start (s : Responder) (salt : List Nat) (a : Point) :
    (List Nat × Point) × Responder :=
  let cpace := s.cpace.recvClr salt
  let pr := cpace.prf 64
  let g := pointFromUniform pr.1
  let b := g * s.d
  let cpace := pr.2.recvClr (compress a)
  let cpace := cpace.sendClr s.salt
  let cpace := cpace.sendClr (compress b)
  let cpace := cpace.key (compress (a * s.d))
  ((s.salt, b), { s with cpace := cpace })

/-- `Responder::finish(self)`. -/
def Responder.finish (s : Responder) : Strobe := s.cpace

/-! ## Order lemmas for the lexicographic byte comparison -/

theorem lexLt_asymm : ∀ a b : List Nat, lexLt a b = true → lexLt b a = false
  | [], [] => by simp [lexLt]
  | [], _ :: _ => by simp [lexLt]
  | _ :: _, [] => by simp [lexLt]
  | x :: xs, y :: ys => by
    simp only [lexLt]
    intro h
    rcases Nat.lt_trichotomy x y with h1 | h1 | h1
    · simp [h1, Nat.lt_asymm h1]
    · subst h1
      simp only [Nat.lt_irrefl, if_false] at h ⊢
      exact lexLt_asymm xs ys h
    · simp [h1, Nat.lt_asymm h1] at h

theorem lexLt_conn : ∀ a b : List Nat, lexLt a b = false → lexLt b a = false → a = b
  | [], [] => by simp
  | [], _ :: _ => by simp [lexLt]
  | _ :: _, [] => by simp [lexLt]
  | x :: xs, y :: ys => by
    simp only [lexLt]
    intro h h'
    rcases Nat.lt_trichotomy x y with h1 | h1 | h1
    · simp [h1] at h
    · subst h1
      simp only [Nat.lt_irrefl, if_false] at h h'
      rw [lexLt_conn xs ys h h']
    · simp [h1] at h'

theorem lexOrder_min_swap (a b : List Nat) :
    (if lexLt b a then b else a) = (if lexLt a b then a else b) := by
  cases h1 : lexLt a b
  · cases h2 : lexLt b a
    · rw [lexLt_conn a b h1 h2]
    · simp
  · rw [lexLt_asymm a b h1]
    simp

theorem lexOrder_max_swap (a b : List Nat) :
    (if lexLt b a then a else b) = (if lexLt a b then b else a) := by
  cases h1 : lexLt a b
  · cases h2 : lexLt b a
    · rw [lexLt_conn a b h1 h2]
    · simp
  · rw [lexLt_asymm a b h1]
    simp

/-! ## Unfolding lemmas for the exchange engine -/

theorem Exchanger.new_def (a b pw r : List Nat) :
    Exchanger.new a b pw r =
      { cpace := ⟨[.init protoLabel, .ad (if lexLt a b then a else b),
                   .ad (if lexLt a b then b else a), .key pw, .prfMark 64], none⟩,
        d := scalarFromBytesWide r,
        y := sessionGen a b pw * scalarFromBytesWide r } := by
  simp [Exchanger.new, sessionGen, Strobe.new, Strobe.ad, Strobe.key, Strobe.prf]

theorem sessionGen_swap (a b pw : List Nat) : sessionGen b a pw = sessionGen a b pw := by
  unfold sessionGen
  rw [lexOrder_min_swap a b, lexOrder_max_swap a b]

theorem new_swap (a b pw r : List Nat) :
    Exchanger.new b a pw r = Exchanger.new a b pw r := by
  rw [Exchanger.new_def, Exchanger.new_def, lexOrder_min_swap a b, lexOrder_max_swap a b,
    sessionGen_swap a b pw]

theorem Exchanger.receive_ops (e : Exchanger) (y : Point)
    (h : e.cpace.is_receiver = none) :
    (e.receive y).ops =
      e.cpace.ops ++
        ((if lexLt (compress e.y) (compress y) then
            [StrobeOp.clr false (compress e.y), StrobeOp.clr true (compress y)]
          else
            [StrobeOp.clr false (compress y), StrobeOp.clr true (compress e.y)]) ++
          [StrobeOp.key (compress (y * e.d))]) := by
  by_cases hlt : lexLt (compress e.y) (compress y)
  · simp [Exchanger.receive, Strobe.sendClr, Strobe.recvClr, Strobe.txOp, Strobe.key, hlt, h]
  · simp [Exchanger.receive, Strobe.sendClr, Strobe.recvClr, Strobe.txOp, Strobe.key, hlt, h]

theorem extract_eq (s : Strobe) (n : Nat) : extract s n = prfOut s.ops n := rfl

theorem receive_ops_cross (c : Strobe) (h : c.is_receiver = none) (g da db : ZMod ell) :
    (Exchanger.receive ⟨c, da, g * da⟩ (g * db)).ops =
      (Exchanger.receive ⟨c, db, g * db⟩ (g * da)).ops := by
  rw [Exchanger.receive_ops ⟨c, da, g * da⟩ (g * db) h,
    Exchanger.receive_ops ⟨c, db, g * db⟩ (g * da) h]
  have hk : g * db * da = g * da * db := by ring
  simp only [hk]
  cases huv : lexLt (compress (g * da)) (compress (g * db))
  · cases hvu : lexLt (compress (g * db)) (compress (g * da))
    · rw [lexLt_conn _ _ huv hvu]
    · simp [huv, hvu]
  · rw [lexLt_asymm _ _ huv]
    simp [huv]

/-! ## Claim theorems -/

/-- C1: For every pair of identities and password (the code's `Exchanger`
accepts no session id and no role tag) and every value of the two
per-instance sampled random byte strings, the initiating party's
`Exchanger::new(id_a, id_b, password)` and the responding party's
`Exchanger::new(id_b, id_a, password)`, each fed the other's `send()`
output through `receive`, yield transcripts whose `extract(16)` outputs
are byte-equal; `receive` returns the transcript directly and has no
`InvalidPeerKey` outcome on this (or any) path. -/
theorem exchanger_agreement (id_a id_b pw ra rb : List Nat) :
    extract ((Exchanger.new id_a id_b pw ra).receive
        (Exchanger.new id_b id_a pw rb).send) 16 =
      extract ((Exchanger.new id_b id_a pw rb).receive
        (Exchanger.new id_a id_b pw ra).send) 16 := by
  rw [new_swap id_a id_b pw rb, extract_eq, extract_eq]
  rw [Exchanger.new_def id_a id_b pw ra, Exchanger.new_def id_a id_b pw rb]
  simp only [Exchanger.send]
  exact congrArg (fun l => prfOut l 16)
    (receive_ops_cross _ rfl (sessionGen id_a id_b pw)
      (scalarFromBytesWide ra) (scalarFromBytesWide rb))

/-- C6: `Exchanger::new` is symmetric in the order of its two identity
arguments: with the same password and the same sampled random bytes,
`new(id_a, id_b, password)` and `new(id_b, id_a, password)` produce
identical transcript state, session generator, secret scalar, and public
point, because construction absorbs the identities in lexical byte
order. -/
theorem new_symmetric_in_ids (id_a id_b pw r : List Nat) :
    (Exchanger.new id_b id_a pw r).cpace = (Exchanger.new id_a id_b pw r).cpace ∧
      sessionGen id_b id_a pw = sessionGen id_a id_b pw ∧
      (Exchanger.new id_b id_a pw r).d = (Exchanger.new id_a id_b pw r).d ∧
      (Exchanger.new id_b id_a pw r).y = (Exchanger.new id_a id_b pw r).y := by
  rw [new_swap id_a id_b pw r, sessionGen_swap id_a id_b pw]
  exact ⟨rfl, rfl, rfl, rfl⟩

/-- C7: `send` returns the stored public point `y` and mutates no field:
any number of successive `send` calls on the same instance all return the
same point and leave the whole state — transcript and secret scalar
included — unchanged. -/
theorem send_idempotent_pure (e : Exchanger) (n : Nat) :
    (sendCalls n e).1 = List.replicate n e.y ∧ (sendCalls n e).2 = e ∧
      Exchanger.send e = e.y := by
  induction n with
  | zero => exact ⟨rfl, rfl, rfl⟩
  | succ k ih =>
      refine ⟨?_, ?_, rfl⟩
      · simp [sendCalls, Exchanger.send, ih.1, List.replicate_succ]
      · simp [sendCalls, ih.2.1]

/-- C2 counterexample: with all-zero random bytes the secret scalar is 0,
so the shared point for the identity remote point is the identity element;
the claim then demands an `InvalidPeerKey` error with no transcript, but
`receive` completes and returns a transcript finalized by a `key`
operation (with the identity's 32-zero-byte encoding). -/
theorem receive_identity_not_rejected_cex :
    (0 : Point) * (Exchanger.new [1] [2] [3] (List.replicate 64 0)).d = 0 ∧
      (((Exchanger.new [1] [2] [3] (List.replicate 64 0)).receive 0).ops).getLast? =
        some (StrobeOp.key (List.replicate 32 0)) := by
  constructor
  · decide
  · decide

/-- C2 amended: `receive` is total and never returns an error: for every
`Exchanger` and every remote point `y` — including every `y` for which
the shared point `y * d` is the identity element — it returns the
transcript finalized by keying with the compressed shared point. -/
theorem receive_total_keys_shared (e : Exchanger) (y : Point) :
    ((e.receive y).ops).getLast? = some (StrobeOp.key (compress (y * e.d))) := by
  simp only [Exchanger.receive, Strobe.key]
  simp

/-- C5: when the computed shared point `y * d` is the identity element
(for instance because the remote point is the identity), `receive`
nevertheless returns a finalized transcript, keyed with the identity
element's fixed compressed encoding: 32 zero bytes, a constant
independent of the password and the identities. -/
theorem identity_shared_key_constant (e : Exchanger) (y : Point)
    (h : y * e.d = 0) :
    (((e.receive y)).ops).getLast? = some (StrobeOp.key (List.replicate 32 0)) := by
  have hc : compress (0 : Point) = List.replicate 32 0 := by decide
  simp only [Exchanger.receive, Strobe.key, h, hc]
  simp

/-- Witness for C5 at a concrete instance: the remote point is the
identity, so the shared point is the identity. -/
theorem identity_shared_key_constant_witness :
    (0 : Point) * (Exchanger.new [4] [5] [6] (List.replicate 64 7)).d = 0 ∧
      (((Exchanger.new [4] [5] [6] (List.replicate 64 7)).receive 0).ops).getLast? =
        some (StrobeOp.key (List.replicate 32 0)) :=
  ⟨zero_mul _, identity_shared_key_constant _ 0 (zero_mul _)⟩

/-- C3 counterexample: the role rule is not applied to the identities
during construction: the construction transcript of a concrete
`Exchanger` contains no `send_cleartext`/`receive_cleartext` record at
all — the identities are absorbed as associated data. -/
theorem new_records_no_cleartext_cex :
    ((Exchanger.new [1] [2] [3] (List.replicate 64 0)).cpace.ops.all
      fun op => !op.isClr) = true := by decide

/-- C3 amended: recording order is lexical, not role-determined, and the
`Exchanger` has no role: construction records no cleartext at all (the
identities are absorbed as associated data in lexical byte order), and
the only cleartext recording of a session happens once, in `receive`,
where exactly the two compressed public points are recorded with the
lexically smaller encoding first — the local point is marked as the
op-list entry it belongs to (sent, received) by the comparison, not by a
role. -/
theorem lexical_recording_order (a b pw r : List Nat) (y : Point) :
    ((Exchanger.new a b pw r).cpace.ops.filter (fun op => op.isClr) = []) ∧
      (((Exchanger.new a b pw r).receive y).ops.filter (fun op => op.isClr) =
        if lexLt (compress (Exchanger.new a b pw r).y) (compress y) then
          [StrobeOp.clr false (compress (Exchanger.new a b pw r).y),
           StrobeOp.clr true (compress y)]
        else
          [StrobeOp.clr false (compress y),
           StrobeOp.clr true (compress (Exchanger.new a b pw r).y)]) := by
  have hrec : (Exchanger.new a b pw r).cpace.is_receiver = none := by
    rw [Exchanger.new_def]
  constructor
  · rw [Exchanger.new_def]
    simp [StrobeOp.isClr]
  · rw [Exchanger.receive_ops _ _ hrec]
    by_cases hlt : lexLt (compress (Exchanger.new a b pw r).y) (compress y)
    · rw [Exchanger.new_def]
      rw [Exchanger.new_def] at hlt
      simp [hlt, StrobeOp.isClr, StrobeOp.isKey]
    · rw [Exchanger.new_def]
      rw [Exchanger.new_def] at hlt
      simp [hlt, StrobeOp.isClr, StrobeOp.isKey]

/-- C4 counterexample: `Exchanger::new` takes no session id, and the
generator is reused across distinct sessions: two constructions with the
same identities and password but different sampled randomness — i.e. two
different sessions — have identical transcript state and derive their
public points from one and the same generator `sessionGen`, so the
generator does not differ per session. -/
theorem generator_reuse_cex :
    (List.replicate 64 0 ≠ List.replicate 64 1) ∧
      (Exchanger.new [1] [2] [3] (List.replicate 64 0)).cpace =
        (Exchanger.new [1] [2] [3] (List.replicate 64 1)).cpace ∧
      (Exchanger.new [1] [2] [3] (List.replicate 64 0)).y =
        sessionGen [1] [2] [3] * (Exchanger.new [1] [2] [3] (List.replicate 64 0)).d ∧
      (Exchanger.new [1] [2] [3] (List.replicate 64 1)).y =
        sessionGen [1] [2] [3] * (Exchanger.new [1] [2] [3] (List.replicate 64 1)).d := by
  refine ⟨by decide, ?_, ?_, ?_⟩ <;>
    simp [Exchanger.new_def]

/-- C4 amended: construction accepts no session id; the session generator
is a deterministic function `sessionGen` of the identities and the
password alone: every constructed instance derives its public point from
it, and two constructions with equal identities and password have equal
transcript state (hence equal generators) regardless of the sampled
randomness. -/
theorem generator_function_of_ids_password (a b pw r r' : List Nat) :
    (Exchanger.new a b pw r).y =
        sessionGen a b pw * (Exchanger.new a b pw r).d ∧
      (Exchanger.new a b pw r).cpace = (Exchanger.new a b pw r').cpace := by
  rw [Exchanger.new_def, Exchanger.new_def]
  exact ⟨rfl, rfl⟩

/-- C8: the secret scalar is the wide reduction — 64 bytes, i.e. 512 bits,
of secure random input reduced modulo the group order — and it is never
serialized or transmitted: the construction transcript is independent of
the random bytes, `send` transmits only the public point
`sessionGen * d`, and the byte strings `receive` records are exactly the
two compressed public points and the compressed shared point. -/
theorem scalar_wide_reduction (a b pw r : List Nat) (h : r.length = 64) :
    (Exchanger.new a b pw r).d = (natFromLe r : ZMod ell) ∧
      ((Exchanger.new a b pw r).d).val = natFromLe r % ell ∧
      8 * r.length = 512 ∧
      (Exchanger.new a b pw r).send =
        sessionGen a b pw * (Exchanger.new a b pw r).d ∧
      (∀ r' : List Nat, (Exchanger.new a b pw r).cpace =
        (Exchanger.new a b pw r').cpace) ∧
      (∀ y : Point, ((Exchanger.new a b pw r).receive y).ops =
        (Exchanger.new a b pw r).cpace.ops ++
          ((if lexLt (compress (Exchanger.new a b pw r).y) (compress y) then
              [StrobeOp.clr false (compress (Exchanger.new a b pw r).y),
               StrobeOp.clr true (compress y)]
            else
              [StrobeOp.clr false (compress y),
               StrobeOp.clr true (compress (Exchanger.new a b pw r).y)]) ++
            [StrobeOp.key (compress (y * (Exchanger.new a b pw r).d))])) := by
  have hrec : (Exchanger.new a b pw r).cpace.is_receiver = none := by
    rw [Exchanger.new_def]
  refine ⟨?_, ?_, by omega, ?_, ?_, ?_⟩
  · rw [Exchanger.new_def]
    rfl
  · rw [Exchanger.new_def]
    exact ZMod.val_natCast (natFromLe r)
  · rw [Exchanger.new_def]
    rfl
  · intro r'
    rw [Exchanger.new_def, Exchanger.new_def]
  · intro y
    exact Exchanger.receive_ops _ y hrec

/-- Witness for C8 at a concrete 64-byte random input. -/
theorem scalar_wide_reduction_witness :
    (List.replicate 64 9).length = 64 ∧
      ((Exchanger.new [1] [2] [3] (List.replicate 64 9)).d =
          (natFromLe (List.replicate 64 9) : ZMod ell) ∧
        ((Exchanger.new [1] [2] [3] (List.replicate 64 9)).d).val =
          natFromLe (List.replicate 64 9) % ell ∧
        8 * (List.replicate 64 9).length = 512 ∧
        (Exchanger.new [1] [2] [3] (List.replicate 64 9)).send =
          sessionGen [1] [2] [3] *
            (Exchanger.new [1] [2] [3] (List.replicate 64 9)).d ∧
        (∀ r' : List Nat, (Exchanger.new [1] [2] [3] (List.replicate 64 9)).cpace =
          (Exchanger.new [1] [2] [3] r').cpace) ∧
        (∀ y : Point,
          ((Exchanger.new [1] [2] [3] (List.replicate 64 9)).receive y).ops =
            (Exchanger.new [1] [2] [3] (List.replicate 64 9)).cpace.ops ++
              ((if lexLt (compress (Exchanger.new [1] [2] [3]
                    (List.replicate 64 9)).y) (compress y) then
                  [StrobeOp.clr false (compress (Exchanger.new [1] [2] [3]
                      (List.replicate 64 9)).y),
                   StrobeOp.clr true (compress y)]
                else
                  [StrobeOp.clr false (compress y),
                   StrobeOp.clr true (compress (Exchanger.new [1] [2] [3]
                      (List.replicate 64 9)).y)]) ++
                [StrobeOp.key (compress (y *
                    (Exchanger.new [1] [2] [3] (List.replicate 64 9)).d))]))) :=
  ⟨by decide, scalar_wide_reduction [1] [2] [3] (List.replicate 64 9) (by decide)⟩

/-- C9: a failure of the secure random byte source during scalar sampling
is fatal, not a recoverable error value: `getrandom(..).expect("rng
failure")` panics, so on the failure path no `Exchanger` value exists at
all (embedded as `none`), and every instance the constructor ever returns
is built from successfully sampled bytes — there is no fallback
randomness. -/
theorem rng_failure_fatal (a b pw : List Nat) :
    Exchanger.newFromRng a b pw none = none ∧
      ∀ (rng : Option (List Nat)) (e : Exchanger),
        Exchanger.newFromRng a b pw rng = some e →
          ∃ r, rng = some r ∧ e = Exchanger.new a b pw r := by
  refine ⟨rfl, ?_⟩
  intro rng e h
  cases rng with
  | none => simp [Exchanger.newFromRng] at h
  | some r =>
      refine ⟨r, rfl, ?_⟩
      simp [Exchanger.newFromRng] at h
      exact h.symm

/-- Witness for C9: a successful sampling yields exactly the instance
built from the sampled bytes. -/
theorem rng_failure_fatal_witness :
    Exchanger.newFromRng [1] [2] [3] none = none ∧
      (∃ r, (some (List.replicate 64 2) : Option (List Nat)) = some r ∧
        Exchanger.new [1] [2] [3] (List.replicate 64 2) =
          Exchanger.new [1] [2] [3] r) :=
  ⟨(rng_failure_fatal [1] [2] [3]).1,
    (rng_failure_fatal [1] [2] [3]).2 (some (List.replicate 64 2))
      (Exchanger.new [1] [2] [3] (List.replicate 64 2)) rfl⟩

/-- C10: the crate also exposes the salt-based `Initiator`/`Responder`
protocol, and an honest run — `Initiator::new` then `start`,
`Responder::new` then `start` fed the initiator's salt and point,
`Initiator::finish` fed the responder's salt and point, and
`Responder::finish` — yields, for every choice of identities, password,
sampled scalar bytes and salts, two Strobe transcripts whose pseudorandom
outputs of any equal requested length are byte-equal. -/
theorem salted_exchange_agreement (idI idR pw rI sI rR sR : List Nat) (n : Nat) :
    extract
      ((((Initiator.new idI idR pw rI sI).start).2).finish
        (((Responder.new idR idI pw rR sR).start
            ((Initiator.new idI idR pw rI sI).start).1.1
            ((Initiator.new idI idR pw rI sI).start).1.2).1.1)
        (((Responder.new idR idI pw rR sR).start
            ((Initiator.new idI idR pw rI sI).start).1.1
            ((Initiator.new idI idR pw rI sI).start).1.2).1.2)) n =
      extract
        (((Responder.new idR idI pw rR sR).start
            ((Initiator.new idI idR pw rI sI).start).1.1
            ((Initiator.new idI idR pw rI sI).start).1.2).2.finish) n := by
  simp only [extract_eq]
  congr 1
  simp [Initiator.new, Initiator.start, Initiator.finish, Responder.new,
    Responder.start, Responder.finish, Strobe.new, Strobe.ad, Strobe.key,
    Strobe.sendClr, Strobe.recvClr, Strobe.txOp, Strobe.prf, Option.getD,
    mul_right_comm]
